import Mathlib

/-!
Verification development for the Telegram/Ollama chat-relay program
(`app.py`).  The Python source is shallowly embedded: pure fragments
become Lean functions, the stateful per-message control flow of
`handle_message` becomes an explicit function from an environment
(stream outcomes, timestamps) and the on-disk history to a result
record.  Machine strings are modelled as Lean `String`/`List Char`
(Python's `str.strip`/`str.lower` are modelled on the ASCII whitespace
and letter ranges, which is all the program's comparisons use).
-/

/-! ## Basic character and string helpers (models of Python str methods) -/

/-- Model of Python's whitespace test used by `str.strip` and `\s` in
regexes, restricted to the ASCII whitespace characters. -/
def isSpaceChar (c : Char) : Bool :=
  c = ' ' || c = '\t' || c = '\n' || c = '\r' || c = '\x0b' || c = '\x0c'

/-- Characters that end a sentence in `split_message`'s regex
`(?<=[.!?])\s+`. -/
def isSentencePunct (c : Char) : Bool :=
  c = '.' || c = '!' || c = '?'

/-- All characters of a list with the whitespace removed.  Used to state
content preservation "modulo whitespace". -/
def removeWs (cs : List Char) : List Char :=
  cs.filter (fun c => !isSpaceChar c)

/-- Model of Python `str.strip()` on character lists: drop leading and
trailing whitespace. -/
def pyStripL (cs : List Char) : List Char :=
  ((cs.dropWhile isSpaceChar).reverse.dropWhile isSpaceChar).reverse

/-- Model of Python `str.strip()`. -/
def pyStrip (s : String) : String :=
  String.mk (pyStripL s.data)

/-- Model of Python `str.lower()` (ASCII letters). -/
def pyLower (s : String) : String :=
  String.mk (s.data.map Char.toLower)

/-- Model of Python's substring test `needle in hay`. -/
def containsSub (needle : List Char) : List Char → Bool
  | [] => needle.isEmpty
  | c :: rest => needle.isPrefixOf (c :: rest) || containsSub needle rest

/-! ## History store (`app.py` lines 105–154)

`update_history` loads the stored history, appends one entry (with the
wall-clock timestamp, and the sender when it is truthy), truncates to
the last `MAX_HISTORY` entries, persists the result and returns it.  In
the sequential model the persisted sequence is exactly the returned
list.  The timestamp is an opaque string supplied by the caller
(`time.strftime` is an external effect). -/

/-- `MAX_HISTORY = 100` (`app.py` line 105). -/
def MAX_HISTORY : Nat := 100

/-- One message entry (`app.py` lines 140–146): `role`, `content`,
`timestamp`, and `sender` present only when a truthy sender was given. -/
structure Entry where
  role : String
  content : String
  timestamp : String
  sender : Option String
deriving DecidableEq, Repr

/-- The entry built by `update_history` (`app.py` lines 140–146): the
`sender` key is added only when the argument is truthy (non-`None`,
non-empty). -/
def mkEntry (role content : String) (sender : Option String) (ts : String) : Entry :=
  { role := role, content := content, timestamp := ts,
    sender := match sender with
      | some s => if s = "" then none else some s
      | none => none }

/-- Embedding of `update_history` (`app.py` lines 138–151), acting on
the loaded history list: append the new entry, and when the bound is
exceeded keep only the last `MAX_HISTORY` entries
(`history[-MAX_HISTORY:]`). -/
def update_history (history : List Entry) (role content : String)
    (sender : Option String) (ts : String) : List Entry :=
  let history := history ++ [mkEntry role content sender ts]
  if history.length > MAX_HISTORY then
    history.drop (history.length - MAX_HISTORY)
  else
    history

/-- Embedding of `reset_history` (`app.py` lines 153–154): the persisted
sequence becomes empty. -/
def reset_history : List Entry := []

/-- The last `MAX_HISTORY` entries of a list (everything when the list
is short enough); `update_history` always persists this shape. -/
def truncateHistory (l : List Entry) : List Entry :=
  l.drop (l.length - MAX_HISTORY)

theorem update_history_eq (h : List Entry) (r c : String) (s : Option String) (t : String) :
    update_history h r c s t = truncateHistory (h ++ [mkEntry r c s t]) := by
  show (if (h ++ [mkEntry r c s t]).length > MAX_HISTORY then
          (h ++ [mkEntry r c s t]).drop ((h ++ [mkEntry r c s t]).length - MAX_HISTORY)
        else h ++ [mkEntry r c s t]) = truncateHistory (h ++ [mkEntry r c s t])
  unfold truncateHistory
  split
  · rfl
  · next hl =>
    have h0 : (h ++ [mkEntry r c s t]).length - MAX_HISTORY = 0 := by omega
    rw [h0, List.drop_zero]

theorem truncate_append (l l2 : List Entry) :
    truncateHistory (truncateHistory l ++ l2) = truncateHistory (l ++ l2) := by
  unfold truncateHistory
  rw [List.drop_append_eq_append_drop, List.drop_append_eq_append_drop, List.drop_drop]
  have e1 : (l.length - MAX_HISTORY)
        + ((l.drop (l.length - MAX_HISTORY) ++ l2).length - MAX_HISTORY)
      = (l ++ l2).length - MAX_HISTORY := by
    simp only [List.length_append, List.length_drop]
    omega
  have e2 : ((l.drop (l.length - MAX_HISTORY) ++ l2).length - MAX_HISTORY)
        - (l.drop (l.length - MAX_HISTORY)).length
      = ((l ++ l2).length - MAX_HISTORY) - l.length := by
    simp only [List.length_append, List.length_drop]
    omega
  rw [e1, e2]

theorem update_truncate (l : List Entry) (r c : String) (s : Option String) (t : String) :
    update_history (truncateHistory l) r c s t = truncateHistory (l ++ [mkEntry r c s t]) := by
  rw [update_history_eq, truncate_append]

theorem truncate_nil : truncateHistory [] = [] := rfl

theorem mem_truncate_append (l l2 : List Entry) (e : Entry)
    (h2 : l2.length ≤ MAX_HISTORY) (he : e ∈ l2) :
    e ∈ truncateHistory (l ++ l2) := by
  unfold truncateHistory
  rw [List.drop_append_eq_append_drop]
  refine List.mem_append.mpr (Or.inr ?_)
  have h0 : (l ++ l2).length - MAX_HISTORY - l.length = 0 := by
    rw [List.length_append]
    omega
  rw [h0, List.drop_zero]
  exact he

/-! ## Message segmenter (`app.py` lines 159–180)

`split_message` first splits the text with
`re.split(r'(?<=[.!?])\s+', text)`: the delimiters are the maximal
whitespace runs immediately preceded by `.`, `!` or `?`; the whitespace
of a delimiter is removed.  `sentSplitAux` is a character-by-character
state machine with the same semantics (`inDelim`: currently consuming a
delimiter run; `prevPunct`: the previous character was sentence
punctuation; `acc`: current piece, reversed). -/

def sentSplitAux (inDelim prevPunct : Bool) (acc : List Char) :
    List Char → List (List Char)
  | [] => [acc.reverse]
  | c :: rest =>
    if inDelim then
      if isSpaceChar c then sentSplitAux true false acc rest
      else sentSplitAux false (isSentencePunct c) (c :: acc) rest
    else if prevPunct && isSpaceChar c then
      acc.reverse :: sentSplitAux true false [] rest
    else
      sentSplitAux false (isSentencePunct c) (c :: acc) rest

/-- `re.split(r'(?<=[.!?])\s+', text)` (`app.py` line 162). -/
def splitSentences (cs : List Char) : List (List Char) :=
  sentSplitAux false false [] cs

/-- The inner hard-split loop for an over-long sentence
(`app.py` lines 170–171): `sentence[i:i+max_length]` for
`i in range(0, len(sentence), max_length)`.  (`range` with step 0 is a
Python error; the model returns `[]` there, and every claim assumes a
positive `max_length`.) -/
def hardSplit (n : Nat) (cs : List Char) : List (List Char) :=
  if cs.isEmpty then []
  else if n = 0 then []
  else cs.take n :: hardSplit n (cs.drop n)
termination_by cs.length
decreasing_by
  rename_i hne hz
  simp only [List.length_drop]
  have hcs : cs ≠ [] := by simpa [List.isEmpty_iff] using hne
  have hpos : 0 < cs.length := List.length_pos.mpr hcs
  omega

/-- The sentence-packing loop of `split_message`
(`app.py` lines 163–179), with the `chunks` and `current_chunk`
accumulators explicit. -/
def packChunks (maxLen : Nat) : List (List Char) → List (List Char) → List Char → List (List Char)
  | [], chunks, current =>
    if current.isEmpty then chunks else chunks ++ [pyStripL current]
  | s :: rest, chunks, current =>
    if maxLen < s.length then
      let chunks1 := if current.isEmpty then chunks else chunks ++ [pyStripL current]
      packChunks maxLen rest (chunks1 ++ (hardSplit maxLen s).map pyStripL) []
    else if maxLen < current.length + s.length + 1 then
      packChunks maxLen rest (chunks ++ [pyStripL current]) (s ++ [' '])
    else
      packChunks maxLen rest chunks (current ++ s ++ [' '])

/-- Embedding of `split_message` (`app.py` lines 159–180). -/
def split_message (text : String) (max_length : Nat) : List String :=
  if text.length ≤ max_length then [text]
  else (packChunks max_length (splitSentences text.data) [] []).map String.mk

/-- Concatenation of a list of character lists. -/
def joinL : List (List Char) → List Char
  | [] => []
  | l :: ls => l ++ joinL ls

theorem joinL_append (a b : List (List Char)) : joinL (a ++ b) = joinL a ++ joinL b := by
  induction a with
  | nil => rfl
  | cons x a ih => simp [joinL, ih]

theorem removeWs_append (a b : List Char) : removeWs (a ++ b) = removeWs a ++ removeWs b := by
  simp [removeWs]

theorem removeWs_cons (c : Char) (cs : List Char) :
    removeWs (c :: cs) = if isSpaceChar c then removeWs cs else c :: removeWs cs := by
  by_cases h : isSpaceChar c <;> simp [removeWs, List.filter_cons, h]

theorem removeWs_space (c : Char) (cs : List Char) (h : isSpaceChar c = true) :
    removeWs (c :: cs) = removeWs cs := by
  rw [removeWs_cons, if_pos h]

theorem removeWs_dropWhile (cs : List Char) :
    removeWs (cs.dropWhile isSpaceChar) = removeWs cs := by
  induction cs with
  | nil => rfl
  | cons c cs ih =>
    by_cases h : isSpaceChar c
    · rw [List.dropWhile_cons_of_pos h, ih, removeWs_space c cs h]
    · rw [List.dropWhile_cons_of_neg h]

theorem removeWs_reverse (cs : List Char) : removeWs cs.reverse = (removeWs cs).reverse := by
  simp [removeWs, List.filter_reverse]

theorem removeWs_strip (cs : List Char) : removeWs (pyStripL cs) = removeWs cs := by
  unfold pyStripL
  rw [removeWs_reverse, removeWs_dropWhile, removeWs_reverse, List.reverse_reverse,
    removeWs_dropWhile]

theorem removeWs_nil : removeWs [] = [] := rfl

theorem sentSplit_content (cs : List Char) : ∀ (inD pP : Bool) (acc : List Char),
    removeWs (joinL (sentSplitAux inD pP acc cs)) = removeWs acc.reverse ++ removeWs cs := by
  induction cs with
  | nil =>
    intro inD pP acc
    simp [sentSplitAux, joinL, removeWs_nil]
  | cons c rest ih =>
    intro inD pP acc
    have hacc : ∀ pP' : Bool,
        removeWs (joinL (sentSplitAux false pP' (c :: acc) rest))
          = removeWs acc.reverse ++ removeWs (c :: rest) := by
      intro pP'
      rw [ih, List.reverse_cons, removeWs_append, removeWs_cons, removeWs_cons]
      by_cases hs : isSpaceChar c <;> simp [hs, removeWs_nil]
    cases inD
    · by_cases hps : (pP && isSpaceChar c) = true
      · have hs : isSpaceChar c = true := (Bool.and_eq_true_iff.mp hps).2
        simp only [sentSplitAux, hps, Bool.false_eq_true, if_false, if_true, joinL]
        rw [removeWs_append, ih, removeWs_space c rest hs]
        simp [removeWs_nil]
      · simp only [sentSplitAux, hps, Bool.false_eq_true, if_false]
        exact hacc _
    · by_cases hs : isSpaceChar c
      · simp only [sentSplitAux, if_true, hs]
        rw [ih, removeWs_space c rest hs]
      · simp only [sentSplitAux, if_true, hs, Bool.false_eq_true, if_false]
        exact hacc _

theorem hardSplit_join (n : Nat) (cs : List Char) (hn : 0 < n) :
    joinL (hardSplit n cs) = cs := by
  induction cs using hardSplit.induct n with
  | case1 cs h => simp_all [hardSplit, joinL, List.isEmpty_iff]
  | case2 cs h hz => omega
  | case3 cs h hz ih =>
    rw [hardSplit]
    simp only [h, if_false, hz, if_false, joinL, ih]
    exact List.take_append_drop n cs

theorem removeWs_joinL_map_strip (l : List (List Char)) :
    removeWs (joinL (l.map pyStripL)) = removeWs (joinL l) := by
  induction l with
  | nil => rfl
  | cons x l ih => simp [joinL, removeWs_append, removeWs_strip, ih]

theorem packChunks_content (maxLen : Nat) (ss : List (List Char)) (hml : 0 < maxLen) :
    ∀ (chunks : List (List Char)) (current : List Char),
    removeWs (joinL (packChunks maxLen ss chunks current))
      = removeWs (joinL chunks) ++ removeWs current ++ removeWs (joinL ss) := by
  induction ss with
  | nil =>
    intro chunks current
    by_cases h : current.isEmpty
    · have hc : current = [] := List.isEmpty_iff.mp h
      simp [packChunks, h, hc, joinL, removeWs_nil]
    · simp [packChunks, h, joinL_append, removeWs_append, removeWs_strip, joinL,
        removeWs_nil]
  | cons s rest ih =>
    intro chunks current
    by_cases h1 : maxLen < s.length
    · simp only [packChunks, h1, if_true, ih]
      by_cases h2 : current.isEmpty
      · have hc : current = [] := List.isEmpty_iff.mp h2
        simp [h2, hc, joinL_append, removeWs_append, removeWs_joinL_map_strip,
          hardSplit_join maxLen s hml, joinL, removeWs_nil]
      · simp [h2, joinL_append, removeWs_append, removeWs_joinL_map_strip,
          hardSplit_join maxLen s hml, joinL, removeWs_strip, removeWs_nil]
    · by_cases h2 : maxLen < current.length + s.length + 1
      · simp only [packChunks, h1, if_false, h2, if_true, ih]
        have hsp : isSpaceChar ' ' = true := by decide
        simp [joinL_append, removeWs_append, removeWs_strip, joinL, removeWs_cons, hsp,
          removeWs_nil]
      · simp only [packChunks, h1, if_false, h2, if_false, ih]
        have hsp : isSpaceChar ' ' = true := by decide
        simp [joinL_append, removeWs_append, joinL, removeWs_cons, hsp, removeWs_nil]

theorem map_data_map_mk (l : List (List Char)) : (l.map String.mk).map String.data = l := by
  induction l with
  | nil => rfl
  | cons x l ih => simp [ih]

/-- C6: for every input string and positive `max_length`, a string that
fits is returned as the single chunk, and in general the concatenation
of all chunks reproduces the input content modulo whitespace (no
sentence is dropped, order is preserved).  `split_message` is a pure
Lean function, so determinism is inherent. -/
theorem segmenter_content (text : String) (max_length : Nat) (hpos : 0 < max_length) :
    (text.length ≤ max_length → split_message text max_length = [text])
    ∧ removeWs (joinL ((split_message text max_length).map String.data))
        = removeWs text.data := by
  constructor
  · intro hle
    simp [split_message, hle]
  · by_cases hle : text.length ≤ max_length
    · simp [split_message, hle, joinL]
    · simp only [split_message, hle, if_false]
      rw [map_data_map_mk, packChunks_content max_length (splitSentences text.data) hpos [] []]
      unfold splitSentences
      rw [sentSplit_content]
      simp [joinL, removeWs_nil]

/-- Witness for C6 at a concrete input. -/
theorem segmenter_content_witness :
    0 < 4 ∧ removeWs (joinL ((split_message "ab. cd." 4).map String.data))
        = removeWs "ab. cd.".data :=
  ⟨by decide, (segmenter_content "ab. cd." 4 (by decide)).2⟩

theorem sentSplitAux_ne_nil (cs : List Char) : ∀ (inD pP : Bool) (acc : List Char),
    sentSplitAux inD pP acc cs ≠ [] := by
  induction cs with
  | nil =>
    intro inD pP acc
    simp [sentSplitAux]
  | cons c rest ih =>
    intro inD pP acc
    cases inD
    · by_cases hps : (pP && isSpaceChar c) = true
      · simp [sentSplitAux, hps]
      · simpa [sentSplitAux, hps] using ih false (isSentencePunct c) (c :: acc)
    · by_cases hs : isSpaceChar c
      · simpa [sentSplitAux, hs] using ih true false acc
      · simpa [sentSplitAux, hs] using ih false (isSentencePunct c) (c :: acc)

theorem hardSplit_ne_nil (n : Nat) (cs : List Char) (hn : n ≠ 0) (hcs : cs ≠ []) :
    hardSplit n cs ≠ [] := by
  rw [hardSplit]
  simp [List.isEmpty_iff, hcs, hn]

theorem packChunks_ne_nil (maxLen : Nat) (hml : 0 < maxLen) (ss : List (List Char)) :
    ∀ (chunks : List (List Char)) (current : List Char),
      (chunks ≠ [] ∨ current ≠ [] ∨ ss ≠ []) →
      packChunks maxLen ss chunks current ≠ [] := by
  induction ss with
  | nil =>
    intro chunks current h
    by_cases hc : current.isEmpty
    · have hcc : current = [] := List.isEmpty_iff.mp hc
      have hch : chunks ≠ [] := by
        rcases h with h | h | h
        · exact h
        · exact absurd hcc h
        · exact absurd rfl h
      simpa [packChunks, hc] using hch
    · simp [packChunks, hc]
  | cons s rest ih =>
    intro chunks current h
    by_cases h1 : maxLen < s.length
    · simp only [packChunks, h1, if_true]
      apply ih
      left
      have hs : s ≠ [] := by
        intro hcon
        rw [hcon] at h1
        simp at h1
      have hhs : hardSplit maxLen s ≠ [] := hardSplit_ne_nil maxLen s (by omega) hs
      simp [List.append_eq_nil, List.map_eq_nil_iff, hhs]
    · by_cases h2 : maxLen < current.length + s.length + 1
      · simp only [packChunks, h1, if_false, h2, if_true]
        apply ih
        left
        simp
      · simp only [packChunks, h1, if_false, h2, if_false]
        apply ih
        right
        left
        simp

theorem split_message_ne_nil (text : String) (max_length : Nat) (hml : 0 < max_length) :
    split_message text max_length ≠ [] := by
  unfold split_message
  split
  · simp
  · have h := packChunks_ne_nil max_length hml (splitSentences text.data) [] []
      (Or.inr (Or.inr (sentSplitAux_ne_nil text.data false false [])))
    simpa using h

/-! ## Claim C1: bounded FIFO history -/

/-- One append operation (arguments of one `update_history` call). -/
structure AppendOp where
  role : String
  content : String
  sender : Option String
  ts : String

/-- The entry an `AppendOp` produces. -/
def AppendOp.entry (o : AppendOp) : Entry :=
  mkEntry o.role o.content o.sender o.ts

/-- Running a sequence of appends against an initially-empty
conversation, exactly as `update_history` persists them one by one. -/
def applyOps (ops : List AppendOp) : List Entry :=
  ops.foldl (fun h o => update_history h o.role o.content o.sender o.ts) []

theorem applyOps_go (ops : List AppendOp) (l : List Entry) :
    ops.foldl (fun h o => update_history h o.role o.content o.sender o.ts) (truncateHistory l)
      = truncateHistory (l ++ ops.map AppendOp.entry) := by
  induction ops generalizing l with
  | nil => simp
  | cons o ops ih =>
    simp only [List.foldl_cons, List.map_cons]
    rw [update_truncate, ih, List.append_assoc]
    rfl

/-- C1: for every sequence of append operations on a conversation, after
each append the persisted history has length at most `MAX_HISTORY`
(100), and the stored sequence is exactly the most recently appended
entries in their original relative order: it equals the appended entry
sequence with all but the last `MAX_HISTORY` entries dropped (so once
more than 100 entries have been appended, exactly the 100 most recent
remain, oldest evicted first). -/
theorem history_bounded_fifo (ops : List AppendOp) :
    applyOps ops = (ops.map AppendOp.entry).drop (ops.length - MAX_HISTORY)
      ∧ (applyOps ops).length ≤ MAX_HISTORY := by
  have h0 : applyOps ops = truncateHistory (ops.map AppendOp.entry) := by
    have := applyOps_go ops []
    rw [truncate_nil] at this
    simpa [applyOps] using this
  constructor
  · rw [h0]
    unfold truncateHistory
    rw [List.length_map]
  · rw [h0]
    unfold truncateHistory
    rw [List.length_drop, List.length_map]
    omega

/-! ## Tool invoker (`app.py` lines 185–204)

`Tools.parse_tool_call` searches `re.search(r"```tool_code\s*(.*?)\s*```", text, re.DOTALL)`
and returns `match.group(1).strip()`.  Because the inner group is lazy
and the caller strips the result, the returned value is exactly the text
strictly between the first occurrence of the opening tag
```tool_code and the first occurrence of three backticks after it,
stripped of surrounding whitespace; when the tag never occurs, or no
closing fence follows it, there is no match (a later overlapping match
cannot exist: any later occurrence of the tag itself begins with three
backticks). -/

/-- The opening tag of a tool-call fence. -/
def toolTag : List Char := "```tool_code".data

/-- A closing fence. -/
def ticksTok : List Char := "```".data

/-- The suffix of the text after the first occurrence of `toolTag`, when
there is one. -/
def afterFirstTag : List Char → Option (List Char)
  | [] => none
  | c :: rest =>
    if toolTag.isPrefixOf (c :: rest) then some ((c :: rest).drop toolTag.length)
    else afterFirstTag rest

/-- The content before the first occurrence of `ticksTok`, when there is
one. -/
def beforeTicks : List Char → Option (List Char)
  | [] => none
  | c :: rest =>
    if ticksTok.isPrefixOf (c :: rest) then some []
    else (beforeTicks rest).map (fun l => c :: l)

/-- Embedding of `Tools.parse_tool_call` (`app.py` lines 186–192). -/
def parse_tool_call (text : String) : Option String :=
  match afterFirstTag text.data with
  | none => none
  | some rem =>
    match beforeTicks rem with
    | none => none
    | some content => some (String.mk (pyStripL content))

/-- The string-literal call `echo("<arg>")` recognised by the allow-list
evaluation: the argument is a plain double-quoted literal with no
escapes, quotes or newlines. -/
def parseEchoCall (code : List Char) : Option (List Char) :=
  let pre := "echo(\x22".data
  let suf := "\x22)".data
  if pre.isPrefixOf code then
    let rest := code.drop pre.length
    if suf.isSuffixOf rest then
      let mid := rest.take (rest.length - suf.length)
      if mid.all (fun c => c ≠ '\x22' && c ≠ '\x5c' && c ≠ '\n' && c ≠ '\r') then some mid
      else none
    else none
  else none

/-- Embedding of `Tools.run_tool` (`app.py` lines 194–204).  Python
`eval(tool_code, bare-builtins, allowed_tools)` with the allow-list
`echo = lambda x: x` is external-interpreter behaviour; the model covers
the fragment the allow-list admits: `echo("<literal>")` evaluates to the
literal (and `str` of a string is itself); any other expression raises
inside `eval`, which `run_tool` catches and converts to an
error-description string (whose exception detail the model replaces by a
fixed placeholder). -/
def run_tool (tool_code : String) : String :=
  match parseEchoCall tool_code.data with
  | some arg => String.mk arg
  | none => "Error executing tool: exception"

/-! ## Gating oracle (`app.py` lines 209–251)

The network stream is an external effect: the model takes the outcome of
the streamed call, either the list of content chunks that arrived or an
error (any exception raised by `chat` or mid-iteration; partial chunks
accumulated before an exception are discarded by the `except` path,
which returns directly). -/

/-- The fixed instruction of the gating call (`app.py` lines 217–220). -/
def INTERMEDIATE_PROMPT : String :=
  "Based on the following conversation, should you reply to the user or simply observe and add to history? Answer exactly with \x27reply\x27 or \x27observe\x27. If unsure, answer \x27reply\x27."

/-- The payload of `intermediate_decision` (`app.py` lines 210–224): the
last five entries rendered as `role: content (sent by sender)`, joined
with newlines, under the fixed system prompt. -/
def intermediate_payload (conversation : List Entry) : List (String × String) :=
  let recent := conversation.drop (conversation.length - 5)
  let combined := String.intercalate "\n" (recent.map (fun msg =>
    msg.role ++ ": " ++ msg.content ++ (match msg.sender with
      | some s => " (sent by " ++ s ++ ")"
      | none => "")))
  [("system", INTERMEDIATE_PROMPT), ("user", combined)]

/-- Embedding of the decision logic of `intermediate_decision`
(`app.py` lines 230–251): concatenate the streamed chunks, strip and
lower-case; empty defaults to `reply`; exactly `observe` yields
`observe`; anything else yields `reply`; any exception yields `reply`.
As a total Lean function it cannot raise. -/
def intermediate_decision (streamed : Except String (List String)) : String :=
  match streamed with
  | .error _ => "reply"
  | .ok chunks =>
    let decision := String.join chunks
    let decision := pyLower (pyStrip decision)
    if decision = "" then "reply"
    else if decision = "observe" then "observe"
    else "reply"

/-- C3: the gating decision is `observe` exactly when the trimmed,
lower-cased streamed output equals `"observe"`; every other output,
empty output, and any streaming error yields `reply`; the function is
total (never raises) and only ever returns one of the two values. -/
theorem gating_decision_spec :
    (∀ streamed, intermediate_decision streamed = "observe"
        ∨ intermediate_decision streamed = "reply")
    ∧ (∀ chunks, intermediate_decision (Except.ok chunks) = "observe"
        ↔ pyLower (pyStrip (String.join chunks)) = "observe")
    ∧ (∀ e, intermediate_decision (Except.error e) = "reply")
    ∧ (∀ chunks, pyStrip (String.join chunks) = "" →
        intermediate_decision (Except.ok chunks) = "reply") := by
  have hro : ("reply" : String) ≠ "observe" := by decide
  have hoe : ("observe" : String) ≠ "" := by decide
  refine ⟨?_, ?_, ?_, ?_⟩
  · intro streamed
    cases streamed with
    | error e => exact Or.inr rfl
    | ok chunks =>
      by_cases h1 : pyLower (pyStrip (String.join chunks)) = ""
      · exact Or.inr (by simp [intermediate_decision, h1])
      · by_cases h2 : pyLower (pyStrip (String.join chunks)) = "observe"
        · exact Or.inl (by simp [intermediate_decision, h1, h2])
        · exact Or.inr (by simp [intermediate_decision, h1, h2])
  · intro chunks
    by_cases h2 : pyLower (pyStrip (String.join chunks)) = "observe"
    · have h1 : ¬ pyLower (pyStrip (String.join chunks)) = "" := by
        rw [h2]
        exact hoe
      simp [intermediate_decision, h1, h2]
    · by_cases h1 : pyLower (pyStrip (String.join chunks)) = ""
      · simp [intermediate_decision, h1, h2, hro]
      · simp [intermediate_decision, h1, h2, hro]
  · intro e
    rfl
  · intro chunks h
    have h1 : pyLower (pyStrip (String.join chunks)) = "" := by
      rw [h]
      rfl
    simp [intermediate_decision, h1]

/-- Witness for C3: a mixed-case padded `observe`, an error, and
whitespace-only output, at concrete inputs. -/
theorem gating_decision_spec_witness :
    intermediate_decision (Except.ok [" Observe "]) = "observe"
    ∧ intermediate_decision (Except.error "boom") = "reply"
    ∧ intermediate_decision (Except.ok ["  "]) = "reply" :=
  ⟨(gating_decision_spec.2.1 [" Observe "]).mpr (by decide),
   gating_decision_spec.2.2.1 "boom",
   gating_decision_spec.2.2.2 ["  "] (by decide)⟩

/-! ## Response generator payload (`app.py` lines 256–266)

To make the frame property of C9 expressible, Python's heap of message
dicts is explicit: a heap is a list of cells, addresses are indices, the
conversation is a list of addresses of existing cells, and
`dict(msg)` allocates a fresh cell.  The loop reads conversation cells
and only ever appends new cells, so all pre-existing cells are
untouched. -/

/-- A message dict sent to the model: the copies keep all keys of the
history entry; the system message has only `role` and `content`. -/
structure PMsg where
  role : String
  content : String
  timestamp : Option String
  sender : Option String
deriving DecidableEq, Repr

/-- Placeholder for a read of a dangling address (cannot happen for a
well-formed conversation). -/
def defaultPMsg : PMsg := { role := "", content := "", timestamp := none, sender := none }

/-- The copy-and-shape step for one conversation dict
(`app.py` lines 263–265): `new_msg = dict(msg)`, and when the copy is a
user entry carrying a sender, the sender is appended inline to the
copy's content. -/
def shapePMsg (m : PMsg) : PMsg :=
  if m.role = "user" ∧ m.sender.isSome then
    { m with content := m.content ++ " (sent by " ++ m.sender.getD "" ++ ")" }
  else m

/-- The payload-building loop (`app.py` lines 262–266): for each
conversation address, read the cell, allocate the shaped copy as a new
cell, and append the copy's address to the payload. -/
def buildLoop (heap : List PMsg) (messages : List Nat) : List Nat → List PMsg × List Nat
  | [] => (heap, messages)
  | a :: rest =>
    let m := (heap[a]?).getD defaultPMsg
    buildLoop (heap ++ [shapePMsg m]) (messages ++ [heap.length]) rest

/-- The system message dict appended first when the configured system
prompt is non-empty (`app.py` lines 258–260). -/
def sysCell (system_msg : String) : PMsg :=
  { role := "system", content := system_msg, timestamp := none, sender := none }

/-- Payload construction of `stream_ollama_chat_response`
(`app.py` lines 256–266): an optional system message (fresh cell when
the configured system prompt is non-empty) followed by shaped copies of
the conversation entries in order. -/
def build_messages (system_msg : String) (heap : List PMsg) (conversation : List Nat) :
    List PMsg × List Nat :=
  if system_msg = "" then buildLoop heap [] conversation
  else buildLoop (heap ++ [sysCell system_msg]) [heap.length] conversation

theorem buildLoop_heap_ext (as : List Nat) : ∀ (heap : List PMsg) (msgs : List Nat),
    ∃ t, (buildLoop heap msgs as).1 = heap ++ t := by
  induction as with
  | nil =>
    intro heap msgs
    exact ⟨[], by simp [buildLoop]⟩
  | cons a rest ih =>
    intro heap msgs
    obtain ⟨t, ht⟩ := ih (heap ++ [shapePMsg ((heap[a]?).getD defaultPMsg)])
      (msgs ++ [heap.length])
    refine ⟨[shapePMsg ((heap[a]?).getD defaultPMsg)] ++ t, ?_⟩
    simp only [buildLoop, ht, List.append_assoc]

theorem buildLoop_idx_ext (as : List Nat) : ∀ (heap : List PMsg) (msgs : List Nat),
    ∃ u, (buildLoop heap msgs as).2 = msgs ++ u := by
  induction as with
  | nil =>
    intro heap msgs
    exact ⟨[], by simp [buildLoop]⟩
  | cons a rest ih =>
    intro heap msgs
    obtain ⟨u, hu⟩ := ih (heap ++ [shapePMsg ((heap[a]?).getD defaultPMsg)])
      (msgs ++ [heap.length])
    refine ⟨[heap.length] ++ u, ?_⟩
    simp only [buildLoop, hu, List.append_assoc]

theorem buildLoop_spec (as : List Nat) : ∀ (heap : List PMsg) (msgs : List Nat) (k a : Nat),
    as[k]? = some a → a < heap.length →
    ∃ j, (buildLoop heap msgs as).2[msgs.length + k]? = some j
      ∧ heap.length ≤ j
      ∧ (buildLoop heap msgs as).1[j]? = some (shapePMsg ((heap[a]?).getD defaultPMsg)) := by
  induction as with
  | nil =>
    intro heap msgs k a hk ha
    simp at hk
  | cons a0 rest ih =>
    intro heap msgs k a hk ha
    cases k with
    | zero =>
      have ha0 : a0 = a := by simpa using hk
      subst ha0
      refine ⟨heap.length, ?_, le_refl _, ?_⟩
      · obtain ⟨u, hu⟩ := buildLoop_idx_ext rest
          (heap ++ [shapePMsg ((heap[a0]?).getD defaultPMsg)]) (msgs ++ [heap.length])
        simp only [buildLoop, hu, Nat.add_zero]
        rw [List.getElem?_append_left (by simp)]
        exact List.getElem?_concat_length msgs heap.length
      · obtain ⟨t, ht⟩ := buildLoop_heap_ext rest
          (heap ++ [shapePMsg ((heap[a0]?).getD defaultPMsg)]) (msgs ++ [heap.length])
        simp only [buildLoop, ht]
        rw [List.getElem?_append_left (by simp)]
        exact List.getElem?_concat_length heap (shapePMsg ((heap[a0]?).getD defaultPMsg))
    | succ k =>
      have hk' : rest[k]? = some a := by simpa using hk
      have ha' : a < (heap ++ [shapePMsg ((heap[a0]?).getD defaultPMsg)]).length := by
        simp only [List.length_append, List.length_cons, List.length_nil]
        omega
      obtain ⟨j, hj1, hj2, hj3⟩ := ih (heap ++ [shapePMsg ((heap[a0]?).getD defaultPMsg)])
        (msgs ++ [heap.length]) k a hk' ha'
      refine ⟨j, ?_, ?_, ?_⟩
      · simp only [buildLoop]
        have hidx : (msgs ++ [heap.length]).length + k = msgs.length + (k + 1) := by
          simp only [List.length_append, List.length_cons, List.length_nil]
          omega
        rw [← hidx]
        exact hj1
      · have : heap.length ≤ (heap ++ [shapePMsg ((heap[a0]?).getD defaultPMsg)]).length := by
          simp
        omega
      · simp only [buildLoop]
        rw [hj3, List.getElem?_append_left ha]

/-- C9: the Response Generator's payload construction never mutates the
stored conversation entries.  Every pre-existing heap cell is unchanged
after the payload is built, and each conversation entry contributes a
freshly allocated copy (address at or beyond the old heap bound) whose
content carries the inline sender shaping, leaving the original cell
untouched. -/
theorem generator_payload_frame (system_msg : String) (heap : List PMsg)
    (conversation : List Nat) :
    (∀ i, i < heap.length →
      ((build_messages system_msg heap conversation).1)[i]? = heap[i]?)
    ∧ (∀ k a, conversation[k]? = some a → a < heap.length →
      ∃ j, ((build_messages system_msg heap conversation).2)[(if system_msg = "" then 0 else 1) + k]?
            = some j
        ∧ heap.length ≤ j
        ∧ ((build_messages system_msg heap conversation).1)[j]?
            = some (shapePMsg ((heap[a]?).getD defaultPMsg))) := by
  constructor
  · intro i hi
    by_cases hs : system_msg = ""
    · obtain ⟨t, ht⟩ := buildLoop_heap_ext conversation heap []
      simp only [build_messages, hs, if_true, ht]
      rw [List.getElem?_append_left hi]
    · obtain ⟨t, ht⟩ := buildLoop_heap_ext conversation
        (heap ++ [sysCell system_msg]) [heap.length]
      simp only [build_messages, hs, if_false, ht]
      rw [List.append_assoc, List.getElem?_append_left hi]
  · intro k a hk ha
    by_cases hs : system_msg = ""
    · obtain ⟨j, hj1, hj2, hj3⟩ := buildLoop_spec conversation heap [] k a hk ha
      refine ⟨j, ?_, hj2, ?_⟩
      · simpa [build_messages, hs] using hj1
      · simpa [build_messages, hs] using hj3
    · have ha' : a < (heap ++ [sysCell system_msg]).length := by
        simp only [List.length_append, List.length_cons, List.length_nil]
        omega
      obtain ⟨j, hj1, hj2, hj3⟩ := buildLoop_spec conversation
        (heap ++ [sysCell system_msg]) [heap.length] k a hk ha'
      refine ⟨j, ?_, ?_, ?_⟩
      · simpa [build_messages, hs] using hj1
      · have hle : heap.length ≤ (heap ++ [sysCell system_msg]).length := by simp
        omega
      · rw [List.getElem?_append_left ha] at hj3
        simpa [build_messages, hs] using hj3

/-- A sample stored user entry for the C9 witness. -/
def samplePMsg : PMsg :=
  { role := "user", content := "hi", timestamp := some "t", sender := some "alice" }

/-- Witness for C9 at a concrete heap and conversation. -/
theorem generator_payload_frame_witness :
    ((build_messages "sys" [samplePMsg] [0]).1)[0]? = [samplePMsg][0]?
    ∧ ∃ j, ((build_messages "sys" [samplePMsg] [0]).2)[(if ("sys" : String) = "" then 0 else 1) + 0]?
          = some j
        ∧ List.length [samplePMsg] ≤ j
        ∧ ((build_messages "sys" [samplePMsg] [0]).1)[j]?
            = some (shapePMsg ((([samplePMsg])[0]?).getD defaultPMsg)) :=
  ⟨(generator_payload_frame "sys" [samplePMsg] [0]).1 0 (by decide),
   (generator_payload_frame "sys" [samplePMsg] [0]).2 0 0 (by decide) (by decide)⟩

/-! ## Response generator result (`app.py` lines 267–279)

The streamed inference call is an external effect; its outcome is either
the concatenation of the streamed content chunks or an error.  On an
error the partial accumulation is discarded and the visible error string
is returned (`result = f"Error in streaming response: {e}"`); the
function never raises. -/

/-- Consolidation of the streamed outcome into the returned string
(`app.py` lines 267–279). -/
def consolidate (outcome : Except String String) : String :=
  match outcome with
  | .ok chunksJoined => chunksJoined
  | .error e => "Error in streaming response: " ++ e

/-- Embedding of `stream_ollama_chat_response` (`app.py` lines
256–279): the conversation feeds the payload (see `build_messages`);
the returned string is the consolidated stream outcome. -/
def stream_ollama_chat_response (conversation : List Entry)
    (outcome : Except String String) : String :=
  consolidate outcome

/-! ## Conversation orchestrator (`app.py` lines 284–366)

`handle_message` is embedded as a function of: the configured handle,
the inbound message (text, and the `reply_to_message.from_user` chain),
the resolved sender name, the history on disk for the conversation key,
and an environment of external outcomes (the two generation streams,
the gating stream, and the four append timestamps).  The result records
the persisted history, the parts passed to `reply_text` (a failed send
of one part is logged and does not remove later parts), whether the
gating oracle was invoked, the bypass flag, and the combined
tool-output prompt when a tool fired. -/

/-- The author of a message, as the Telegram API reports it.  `is_bot`
is what the code inspects; `is_this_system` additionally records
whether the author is this bot itself (the spec's "message previously
sent by this system"), which the code cannot and does not inspect. -/
structure TUser where
  is_bot : Bool
  is_this_system : Bool
deriving DecidableEq, Repr

/-- An inbound text message: its text and, when it is a direct reply,
the (optional) author of the message replied to. -/
structure TMessage where
  text : String
  reply_to : Option (Option TUser)
deriving DecidableEq, Repr

/-- `BOT_USERNAME = os.getenv("BOT_USERNAME", "").lower()`
(`app.py` line 60). -/
def mkBotUsername (envHandle : String) : String := pyLower envHandle

/-- Embedding of the bypass computation (`app.py` lines 310–315):
true when the message replies to a message whose author exists and is a
bot account, or when the configured handle is non-empty and
`"@" + BOT_USERNAME` occurs in the lower-cased message text. -/
def bypass_intermediate (bot_username : String) (reply_to : Option (Option TUser))
    (user_text : String) : Bool :=
  (match reply_to with
   | some (some u) => u.is_bot
   | _ => false)
  || ((bot_username != "") && containsSub ("@" ++ bot_username).data (pyLower user_text).data)

/-- Definition following the spec's words for C2: bypass exactly when
the message is a direct reply to a message previously sent by this
system, or the text contains a case-insensitive mention of the
configured handle. -/
def bypass_spec (envHandle : String) (reply_to : Option (Option TUser))
    (user_text : String) : Bool :=
  (match reply_to with
   | some (some u) => u.is_this_system
   | _ => false)
  || ((envHandle != "") && containsSub ("@" ++ pyLower envHandle).data (pyLower user_text).data)

/-- Definition following the amended words for C2: bypass exactly when
the message is a direct reply to a message authored by a bot account
(not necessarily this system), or the text contains a case-insensitive
mention of the configured handle. -/
def bypass_spec_amended (envHandle : String) (reply_to : Option (Option TUser))
    (user_text : String) : Bool :=
  (match reply_to with
   | some (some u) => u.is_bot
   | _ => false)
  || ((envHandle != "") && containsSub ("@" ++ pyLower envHandle).data (pyLower user_text).data)

instance instDecEqExcept {α β : Type} [DecidableEq α] [DecidableEq β] :
    DecidableEq (Except α β) := fun x y =>
  match x, y with
  | .ok a, .ok b =>
    if h : a = b then isTrue (by rw [h])
    else isFalse (by intro hc; cases hc; exact h rfl)
  | .ok _, .error _ => isFalse (by intro hc; cases hc)
  | .error _, .ok _ => isFalse (by intro hc; cases hc)
  | .error a, .error b =>
    if h : a = b then isTrue (by rw [h])
    else isFalse (by intro hc; cases hc; exact h rfl)

/-- External outcomes consumed while handling one message: the first
generation stream, the gating stream, the second (post-tool) generation
stream, and the timestamps of the up to four history appends. -/
structure Env where
  stream1 : Except String String
  gateStream : Except String (List String)
  stream2 : Except String String
  ts1 : String
  ts2 : String
  ts3 : String
  ts4 : String
deriving DecidableEq, Repr

/-- Observable outcome of handling one message. -/
structure HandleResult where
  historyFinal : List Entry
  sent : List String
  gatingInvoked : Bool
  bypass : Bool
  combined : Option String
deriving DecidableEq, Repr

/-- Python truthiness of `tool_code` at `app.py` line 351 (`None` and
the empty string are falsy). -/
def toolTruthy : Option String → Bool
  | none => false
  | some c => c != ""

/-- Embedding of `handle_message` (`app.py` lines 298–366) after the
stripping of the raw text (line 301); see `handle_message` for the
entry point.  Sequential model: each `update_history` call loads what
the previous call persisted. -/
def handle_message_core (bot_username user_text : String)
    (reply_to : Option (Option TUser)) (sender : String)
    (h0 : List Entry) (env : Env) : HandleResult :=
  let history1 := update_history h0 "user" user_text (some sender) env.ts1
  let bypass := bypass_intermediate bot_username reply_to user_text
  let assistant_reply := stream_ollama_chat_response history1 env.stream1
  let history2 := update_history history1 "assistant" assistant_reply (some "assistant") env.ts2
  if bypass = false ∧ intermediate_decision env.gateStream = "observe" then
    { historyFinal := history2, sent := [], gatingInvoked := !bypass,
      bypass := bypass, combined := none }
  else if toolTruthy (parse_tool_call assistant_reply) then
    let tool_code := (parse_tool_call assistant_reply).getD ""
    let tool_output := run_tool tool_code
    let formatted_output := "```tool_output\n" ++ tool_output ++ "\n```"
    let combined_prompt := user_text ++ "\n" ++ formatted_output
    let history3 := update_history history2 "user" combined_prompt (some sender) env.ts3
    let final_reply := stream_ollama_chat_response history3 env.stream2
    let history4 := update_history history3 "assistant" final_reply (some "assistant") env.ts4
    { historyFinal := history4, sent := split_message final_reply 4096,
      gatingInvoked := !bypass, bypass := bypass, combined := some combined_prompt }
  else
    { historyFinal := history2, sent := split_message assistant_reply 4096,
      gatingInvoked := !bypass, bypass := bypass, combined := none }

/-- Embedding of `handle_message` (`app.py` lines 298–366): the raw
message text is stripped once (line 301) and everything downstream uses
the stripped text. -/
def handle_message (envHandle : String) (msg : TMessage) (sender : String)
    (h0 : List Entry) (env : Env) : HandleResult :=
  handle_message_core (mkBotUsername envHandle) (pyStrip msg.text) msg.reply_to sender h0 env

theorem stream_ollama_eq (c : List Entry) (o : Except String String) :
    stream_ollama_chat_response c o = consolidate o := rfl

theorem update_update (h0 : List Entry) (r1 c1 : String) (s1 : Option String) (t1 : String)
    (r2 c2 : String) (s2 : Option String) (t2 : String) :
    update_history (update_history h0 r1 c1 s1 t1) r2 c2 s2 t2
      = truncateHistory (h0 ++ [mkEntry r1 c1 s1 t1, mkEntry r2 c2 s2 t2]) := by
  rw [update_history_eq h0, update_truncate, List.append_assoc]
  rfl

theorem update_four (h0 : List Entry)
    (r1 c1 : String) (s1 : Option String) (t1 : String)
    (r2 c2 : String) (s2 : Option String) (t2 : String)
    (r3 c3 : String) (s3 : Option String) (t3 : String)
    (r4 c4 : String) (s4 : Option String) (t4 : String) :
    update_history (update_history (update_history (update_history h0 r1 c1 s1 t1)
        r2 c2 s2 t2) r3 c3 s3 t3) r4 c4 s4 t4
      = truncateHistory (h0 ++ [mkEntry r1 c1 s1 t1, mkEntry r2 c2 s2 t2,
          mkEntry r3 c3 s3 t3, mkEntry r4 c4 s4 t4]) := by
  rw [update_update h0, update_truncate, update_truncate]
  simp [List.append_assoc]

theorem data_eq_nil_iff (s : String) : s.data = [] ↔ s = "" := by
  constructor
  · intro h
    cases s with
    | mk d =>
      simp only at h
      subst h
      rfl
  · intro h
    rw [h]

theorem pyLower_eq_empty (s : String) : (pyLower s = "") ↔ (s = "") := by
  unfold pyLower
  rw [← data_eq_nil_iff (String.mk (s.data.map Char.toLower))]
  show s.data.map Char.toLower = [] ↔ s = ""
  rw [List.map_eq_nil_iff, data_eq_nil_iff]

theorem pyLower_bne_empty (s : String) : (pyLower s != "") = (s != "") := by
  by_cases h : s = ""
  · rw [h]
    rfl
  · have h1 : pyLower s ≠ "" := fun hc => h ((pyLower_eq_empty s).mp hc)
    have e1 : (pyLower s != "") = true := by simpa using h1
    have e2 : (s != "") = true := by simpa using h
    rw [e1, e2]

theorem len2_le (e1 e2 : Entry) : ([e1, e2] : List Entry).length ≤ MAX_HISTORY := by
  simp [MAX_HISTORY]

theorem len4_le (e1 e2 e3 e4 : Entry) :
    ([e1, e2, e3, e4] : List Entry).length ≤ MAX_HISTORY := by
  simp [MAX_HISTORY]

theorem handle_user_entry_mem (bu ut : String) (rt : Option (Option TUser)) (sender : String)
    (h0 : List Entry) (env : Env) :
    mkEntry "user" ut (some sender) env.ts1
      ∈ (handle_message_core bu ut rt sender h0 env).historyFinal := by
  simp only [handle_message_core]
  by_cases hobs : bypass_intermediate bu rt ut = false
      ∧ intermediate_decision env.gateStream = "observe"
  · rw [if_pos hobs]
    dsimp only
    rw [update_update]
    exact mem_truncate_append _ _ _ (len2_le _ _) (by simp)
  · rw [if_neg hobs]
    by_cases htool : toolTruthy (parse_tool_call (stream_ollama_chat_response
        (update_history h0 "user" ut (some sender) env.ts1) env.stream1)) = true
    · rw [if_pos htool]
      dsimp only
      rw [update_four]
      exact mem_truncate_append _ _ _ (len4_le _ _ _ _) (by simp)
    · rw [if_neg htool]
      dsimp only
      rw [update_update]
      exact mem_truncate_append _ _ _ (len2_le _ _) (by simp)

theorem handle_combined_shape (bu ut : String) (rt : Option (Option TUser)) (sender : String)
    (h0 : List Entry) (env : Env) (s : String)
    (hc : (handle_message_core bu ut rt sender h0 env).combined = some s) :
    ∃ rest, s = ut ++ "\n" ++ rest := by
  simp only [handle_message_core] at hc
  by_cases hobs : bypass_intermediate bu rt ut = false
      ∧ intermediate_decision env.gateStream = "observe"
  · rw [if_pos hobs] at hc
    dsimp only at hc
    exact absurd hc (by simp)
  · rw [if_neg hobs] at hc
    by_cases htool : toolTruthy (parse_tool_call (stream_ollama_chat_response
        (update_history h0 "user" ut (some sender) env.ts1) env.stream1)) = true
    · rw [if_pos htool] at hc
      dsimp only at hc
      refine ⟨"```tool_output\n" ++ run_tool ((parse_tool_call (stream_ollama_chat_response
          (update_history h0 "user" ut (some sender) env.ts1) env.stream1)).getD "")
          ++ "\n```", ?_⟩
      exact (Option.some.injEq _ _ ▸ hc).symm
    · rw [if_neg htool] at hc
      dsimp only at hc
      exact absurd hc (by simp)

/-- C2 counterexample: a message that is a direct reply to a message
authored by a bot account that is *not* this system, with no mention in
the text, makes the code set the bypass flag (line 312 tests only
`from_user.is_bot`) although the claim's condition — reply to a message
previously sent by this system, or a mention — is false. -/
theorem bypass_claim_counterexample :
    bypass_intermediate (mkBotUsername "botname")
        (some (some { is_bot := true, is_this_system := false })) (pyStrip "hello") = true
    ∧ bypass_spec "botname"
        (some (some { is_bot := true, is_this_system := false })) (pyStrip "hello") = false := by
  constructor
  · decide
  · decide

/-- C2 (amended): the gating bypass flag is true exactly when the
message is a direct reply to a message authored by a bot account (in
practice this system, but any bot author qualifies), or the configured
handle is non-empty and `"@" + handle` occurs case-insensitively in the
message text; the spec's original condition still implies the flag
(a message sent by this system is sent by a bot account); and whenever
the flag is true the gating oracle is never invoked and a non-empty
list of reply parts is sent. -/
theorem bypass_characterisation (envHandle : String) (msg : TMessage) (sender : String)
    (h0 : List Entry) (env : Env)
    (hbot : ∀ u : TUser, msg.reply_to = some (some u) → u.is_this_system = true →
      u.is_bot = true) :
    (bypass_spec envHandle msg.reply_to (pyStrip msg.text) = true →
      bypass_intermediate (mkBotUsername envHandle) msg.reply_to (pyStrip msg.text) = true)
    ∧ bypass_intermediate (mkBotUsername envHandle) msg.reply_to (pyStrip msg.text)
        = bypass_spec_amended envHandle msg.reply_to (pyStrip msg.text)
    ∧ (bypass_intermediate (mkBotUsername envHandle) msg.reply_to (pyStrip msg.text) = true →
        (handle_message envHandle msg sender h0 env).gatingInvoked = false
        ∧ (handle_message envHandle msg sender h0 env).sent ≠ []) := by
  refine ⟨?_, ?_, ?_⟩
  · intro hsp
    unfold bypass_spec at hsp
    unfold bypass_intermediate mkBotUsername
    rw [pyLower_bne_empty]
    simp only [Bool.or_eq_true] at hsp ⊢
    rcases hsp with hA | hB
    · left
      cases hrt : msg.reply_to with
      | none =>
        rw [hrt] at hA
        simp at hA
      | some ou =>
        cases ou with
        | none =>
          rw [hrt] at hA
          simp at hA
        | some u =>
          rw [hrt] at hA
          have hb := hbot u hrt (by simpa using hA)
          simpa using hb
    · right
      exact hB
  · unfold bypass_intermediate bypass_spec_amended mkBotUsername
    rw [pyLower_bne_empty]
  · intro hby
    unfold handle_message
    simp only [handle_message_core]
    have hcond : ¬ (bypass_intermediate (mkBotUsername envHandle) msg.reply_to
        (pyStrip msg.text) = false ∧ intermediate_decision env.gateStream = "observe") := by
      rintro ⟨hc, _⟩
      rw [hby] at hc
      simp at hc
    rw [if_neg hcond]
    by_cases htool : toolTruthy (parse_tool_call (stream_ollama_chat_response
        (update_history h0 "user" (pyStrip msg.text) (some sender) env.ts1) env.stream1)) = true
    · rw [if_pos htool]
      dsimp only
      rw [hby]
      exact ⟨rfl, split_message_ne_nil _ 4096 (by omega)⟩
    · rw [if_neg htool]
      dsimp only
      rw [hby]
      exact ⟨rfl, split_message_ne_nil _ 4096 (by omega)⟩

/-- Witness for C2 at a concrete mention scenario: handle `botname`
(configured as `BotName`, lower-cased at startup), text
`"hello @botname"`. -/
theorem bypass_characterisation_witness :
    (handle_message "BotName" { text := "hello @botname", reply_to := none } "alice" []
        { stream1 := Except.ok "hi there", gateStream := Except.ok ["reply"],
          stream2 := Except.ok "", ts1 := "t1", ts2 := "t2", ts3 := "t3",
          ts4 := "t4" }).gatingInvoked = false
    ∧ (handle_message "BotName" { text := "hello @botname", reply_to := none } "alice" []
        { stream1 := Except.ok "hi there", gateStream := Except.ok ["reply"],
          stream2 := Except.ok "", ts1 := "t1", ts2 := "t2", ts3 := "t3",
          ts4 := "t4" }).sent ≠ [] :=
  (bypass_characterisation "BotName" { text := "hello @botname", reply_to := none } "alice" []
      { stream1 := Except.ok "hi there", gateStream := Except.ok ["reply"],
        stream2 := Except.ok "", ts1 := "t1", ts2 := "t2", ts3 := "t3", ts4 := "t4" }
      (fun u h => Option.noConfusion h)).2.2 (by decide)

/-- C10: the orchestrator strips the inbound text once (line 301) and
every later use operates on the stripped text: two messages with the
same reply-to reference and the same stripped text are handled
identically (so behaviour never depends on the raw text beyond its
stripped form); the user entry appended to history carries the stripped
text; and any tool-augmented combined prompt starts with the stripped
text. -/
theorem orchestrator_uses_stripped_text (envHandle : String) (m1 m2 : TMessage)
    (sender : String) (h0 : List Entry) (env : Env)
    (hrt : m1.reply_to = m2.reply_to) (ht : pyStrip m1.text = pyStrip m2.text) :
    handle_message envHandle m1 sender h0 env = handle_message envHandle m2 sender h0 env
    ∧ mkEntry "user" (pyStrip m1.text) (some sender) env.ts1
        ∈ (handle_message envHandle m1 sender h0 env).historyFinal
    ∧ (∀ s, (handle_message envHandle m1 sender h0 env).combined = some s →
        ∃ rest, s = pyStrip m1.text ++ "\n" ++ rest) := by
  refine ⟨?_, ?_, ?_⟩
  · unfold handle_message
    rw [ht, hrt]
  · exact handle_user_entry_mem _ _ _ _ _ _
  · intro s hc
    exact handle_combined_shape _ _ _ _ _ _ s hc

/-- Witness for C10: a padded and an already-stripped text are handled
identically. -/
theorem orchestrator_uses_stripped_text_witness :
    handle_message "" { text := "  hi there  ", reply_to := none } "al" []
        { stream1 := Except.ok "ok", gateStream := Except.ok ["reply"],
          stream2 := Except.ok "x", ts1 := "t1", ts2 := "t2", ts3 := "t3", ts4 := "t4" }
      = handle_message "" { text := "hi there", reply_to := none } "al" []
        { stream1 := Except.ok "ok", gateStream := Except.ok ["reply"],
          stream2 := Except.ok "x", ts1 := "t1", ts2 := "t2", ts3 := "t3", ts4 := "t4" } :=
  (orchestrator_uses_stripped_text "" { text := "  hi there  ", reply_to := none }
      { text := "hi there", reply_to := none } "al" []
      { stream1 := Except.ok "ok", gateStream := Except.ok ["reply"],
        stream2 := Except.ok "x", ts1 := "t1", ts2 := "t2", ts3 := "t3", ts4 := "t4" }
      rfl (by decide)).1

/-- C4 counterexample: when the first generation stream fails and the
gating oracle (not bypassed) decides `observe`, the error string is
appended to history as the assistant entry but nothing is sent, so the
claim's "both sends that string to the user and appends it to history"
fails as stated. -/
theorem error_reply_counterexample :
    (handle_message "" { text := "hi", reply_to := none } "al" []
        { stream1 := Except.error "boom", gateStream := Except.ok ["observe"],
          stream2 := Except.ok "x", ts1 := "t1", ts2 := "t2", ts3 := "t3",
          ts4 := "t4" }).sent = []
    ∧ mkEntry "assistant" "Error in streaming response: boom" (some "assistant") "t2"
        ∈ (handle_message "" { text := "hi", reply_to := none } "al" []
            { stream1 := Except.error "boom", gateStream := Except.ok ["observe"],
              stream2 := Except.ok "x", ts1 := "t1", ts2 := "t2", ts3 := "t3",
              ts4 := "t4" }).historyFinal := by
  constructor
  · decide
  · decide

/-- C4 (amended): whenever the inference stream fails during response
generation, the Response Generator returns the visible error string
instead of raising, and the orchestrator appends that string to history
as the assistant entry; the string is moreover sent to the user as the
reply provided the gating oracle does not decide `observe` (when not
bypassed) and the error string contains no tool-call block. -/
theorem error_reply_flow (envHandle : String) (msg : TMessage) (sender : String)
    (h0 : List Entry) (env : Env) (e : String)
    (herr : env.stream1 = Except.error e)
    (hgate : ¬ (bypass_intermediate (mkBotUsername envHandle) msg.reply_to
        (pyStrip msg.text) = false
        ∧ intermediate_decision env.gateStream = "observe"))
    (htool : toolTruthy (parse_tool_call ("Error in streaming response: " ++ e)) = false) :
    stream_ollama_chat_response
        (update_history h0 "user" (pyStrip msg.text) (some sender) env.ts1) env.stream1
      = "Error in streaming response: " ++ e
    ∧ mkEntry "assistant" ("Error in streaming response: " ++ e) (some "assistant") env.ts2
        ∈ (handle_message envHandle msg sender h0 env).historyFinal
    ∧ (handle_message envHandle msg sender h0 env).sent
        = split_message ("Error in streaming response: " ++ e) 4096 := by
  have hcons : consolidate env.stream1 = "Error in streaming response: " ++ e := by
    rw [herr]
    rfl
  refine ⟨?_, ?_, ?_⟩
  · rw [stream_ollama_eq, hcons]
  · unfold handle_message
    simp only [handle_message_core, stream_ollama_eq, hcons]
    rw [if_neg hgate, if_neg (by simp [htool])]
    dsimp only
    rw [update_update]
    exact mem_truncate_append _ _ _ (len2_le _ _) (by simp)
  · unfold handle_message
    simp only [handle_message_core, stream_ollama_eq, hcons]
    rw [if_neg hgate, if_neg (by simp [htool])]

/-- Witness for C4 at a concrete failing stream. -/
theorem error_reply_flow_witness :
    stream_ollama_chat_response
        (update_history [] "user" (pyStrip "hi") (some "al") "t1") (Except.error "boom")
      = "Error in streaming response: " ++ "boom"
    ∧ mkEntry "assistant" ("Error in streaming response: " ++ "boom") (some "assistant") "t2"
        ∈ (handle_message "" { text := "hi", reply_to := none } "al" []
            { stream1 := Except.error "boom", gateStream := Except.ok ["reply"],
              stream2 := Except.ok "x", ts1 := "t1", ts2 := "t2", ts3 := "t3",
              ts4 := "t4" }).historyFinal
    ∧ (handle_message "" { text := "hi", reply_to := none } "al" []
        { stream1 := Except.error "boom", gateStream := Except.ok ["reply"],
          stream2 := Except.ok "x", ts1 := "t1", ts2 := "t2", ts3 := "t3",
          ts4 := "t4" }).sent
        = split_message ("Error in streaming response: " ++ "boom") 4096 :=
  error_reply_flow "" { text := "hi", reply_to := none } "al" []
    { stream1 := Except.error "boom", gateStream := Except.ok ["reply"],
      stream2 := Except.ok "x", ts1 := "t1", ts2 := "t2", ts3 := "t3", ts4 := "t4" }
    "boom" rfl (by decide) (by decide)

/-- C5: when the assistant reply contains a non-empty fenced tool_code
block and gating passes, the tool code is extracted and run, the
combined user entry (original stripped text plus fenced tool output)
and a second assistant entry are appended — both assistant entries
remain in the persisted history — and the parts sent to the user are
the segmentation of the second generation's output; concretely,
extraction and allow-listed evaluation of a fenced
`echo("hi")` call yield `"hi"`. -/
theorem tool_flow (envHandle : String) (msg : TMessage) (sender : String)
    (h0 : List Entry) (env : Env) (code : String)
    (hgate : ¬ (bypass_intermediate (mkBotUsername envHandle) msg.reply_to
        (pyStrip msg.text) = false
        ∧ intermediate_decision env.gateStream = "observe"))
    (htool : parse_tool_call (consolidate env.stream1) = some code)
    (hcode : code ≠ "") :
    (handle_message envHandle msg sender h0 env).sent
        = split_message (consolidate env.stream2) 4096
    ∧ mkEntry "assistant" (consolidate env.stream1) (some "assistant") env.ts2
        ∈ (handle_message envHandle msg sender h0 env).historyFinal
    ∧ mkEntry "assistant" (consolidate env.stream2) (some "assistant") env.ts4
        ∈ (handle_message envHandle msg sender h0 env).historyFinal
    ∧ (handle_message envHandle msg sender h0 env).combined
        = some (pyStrip msg.text ++ "\n" ++ ("```tool_output\n" ++ run_tool code ++ "\n```"))
    ∧ parse_tool_call "```tool_code\necho(\"hi\")\n```" = some "echo(\"hi\")"
    ∧ run_tool "echo(\"hi\")" = "hi" := by
  have htt : toolTruthy (parse_tool_call (consolidate env.stream1)) = true := by
    rw [htool]
    simpa [toolTruthy] using hcode
  have hgd : (parse_tool_call (consolidate env.stream1)).getD "" = code := by
    rw [htool]
    rfl
  unfold handle_message
  simp only [handle_message_core, stream_ollama_eq]
  rw [if_neg hgate, if_pos htt]
  dsimp only
  rw [hgd]
  refine ⟨rfl, ?_, ?_, rfl, by decide, by decide⟩
  · rw [update_four]
    exact mem_truncate_append _ _ _ (len4_le _ _ _ _) (by simp)
  · rw [update_four]
    exact mem_truncate_append _ _ _ (len4_le _ _ _ _) (by simp)

/-- Witness for C5 at a concrete tool-calling reply. -/
theorem tool_flow_witness :
    (handle_message "" { text := "use the tool", reply_to := none } "al" []
        { stream1 := Except.ok "```tool_code\necho(\"hi\")\n```",
          gateStream := Except.ok ["reply"], stream2 := Except.ok "done",
          ts1 := "t1", ts2 := "t2", ts3 := "t3", ts4 := "t4" }).sent
      = split_message (consolidate (Except.ok "done")) 4096
    ∧ (handle_message "" { text := "use the tool", reply_to := none } "al" []
        { stream1 := Except.ok "```tool_code\necho(\"hi\")\n```",
          gateStream := Except.ok ["reply"], stream2 := Except.ok "done",
          ts1 := "t1", ts2 := "t2", ts3 := "t3", ts4 := "t4" }).combined
      = some (pyStrip "use the tool" ++ "\n"
          ++ ("```tool_output\n" ++ run_tool "echo(\"hi\")" ++ "\n```")) :=
  ⟨(tool_flow "" { text := "use the tool", reply_to := none } "al" []
      { stream1 := Except.ok "```tool_code\necho(\"hi\")\n```",
        gateStream := Except.ok ["reply"], stream2 := Except.ok "done",
        ts1 := "t1", ts2 := "t2", ts3 := "t3", ts4 := "t4" } "echo(\"hi\")"
      (by decide) (by decide) (by decide)).1,
   (tool_flow "" { text := "use the tool", reply_to := none } "al" []
      { stream1 := Except.ok "```tool_code\necho(\"hi\")\n```",
        gateStream := Except.ok ["reply"], stream2 := Except.ok "done",
        ts1 := "t1", ts2 := "t2", ts3 := "t3", ts4 := "t4" } "echo(\"hi\")"
      (by decide) (by decide) (by decide)).2.2.2.1⟩

/-! ## History file paths (`app.py` lines 99–108)

`get_history_filepath(key)` is `HISTORY_DIR / f"{key}.json"` with
`pathlib`'s POSIX joining semantics: the name is split on `/`, empty
and `.` components are dropped, a name starting with `/` is absolute
and replaces the base entirely, and `..` components are kept (they are
resolved by the file system when the file is opened).  `load`, `append`
and `reset` all open exactly this path, so whether any of them can
touch a file outside the history directory is decided by this
function. -/

def splitSlashAux (acc : List Char) : List Char → List (List Char)
  | [] => [acc.reverse]
  | c :: rest =>
    if c = '/' then acc.reverse :: splitSlashAux [] rest
    else splitSlashAux (c :: acc) rest

/-- Split a path string on `/`. -/
def splitSlash (cs : List Char) : List (List Char) :=
  splitSlashAux [] cs

/-- A parsed POSIX path: absolute flag and components. -/
structure PyPath where
  absolute : Bool
  comps : List (List Char)
deriving DecidableEq, Repr

/-- Whether a raw path string denotes an absolute path. -/
def headIsSlash (cs : List Char) : Bool :=
  match cs with
  | c :: _ => c == '/'
  | [] => false

/-- `pathlib` parsing of a path string (POSIX flavour): empty and `.`
components are dropped, `..` is kept. -/
def parsePathName (cs : List Char) : PyPath :=
  { absolute := headIsSlash cs,
    comps := (splitSlash cs).filter (fun c => !c.isEmpty && c != ['.']) }

/-- `base / name` in `pathlib`: an absolute name replaces the base. -/
def joinPyPath (base : PyPath) (name : List Char) : PyPath :=
  let q := parsePathName name
  if q.absolute then q
  else { absolute := base.absolute, comps := base.comps ++ q.comps }

/-- The history directory of the default configuration
(`app.py` lines 99–104). -/
def HISTORY_DIR : PyPath := { absolute := false, comps := ["history".data] }

/-- Embedding of `get_history_filepath` (`app.py` lines 107–108):
`HISTORY_DIR / f"{key}.json"`. -/
def get_history_filepath (dir : PyPath) (key : String) : PyPath :=
  joinPyPath dir (key ++ ".json").data

/-- Resolution of `..` components as the file system performs it when
the path is opened; `none` when the path ascends above its starting
directory. -/
def normCompsAux (stack : List (List Char)) : List (List Char) → Option (List (List Char))
  | [] => some stack
  | c :: rest =>
    if c = "..".data then
      match stack with
      | [] => none
      | _ :: _ => normCompsAux stack.dropLast rest
    else normCompsAux (stack ++ [c]) rest

/-- Resolve `..` components of a component list. -/
def normComps (cs : List (List Char)) : Option (List (List Char)) :=
  normCompsAux [] cs

/-- Whether the path resolves to a location inside `dir`: same
(relative) base, no ascent above the working directory, and the
resolved components extend `dir`'s resolved components. -/
def withinDir (dir p : PyPath) : Bool :=
  (p.absolute == dir.absolute) &&
    (match normComps p.comps, normComps dir.comps with
     | some pc, some dc => dc.isPrefixOf pc
     | _, _ => false)

/-- C7 counterexample: the untrusted key `../../etc/passwd` makes
`get_history_filepath` derive a path whose resolution leaves the
history directory entirely, and an absolute key such as `/etc/passwd`
replaces the directory outright: path traversal from untrusted key
values is possible. -/
theorem history_path_counterexample :
    withinDir HISTORY_DIR (get_history_filepath HISTORY_DIR "../../etc/passwd") = false
    ∧ withinDir HISTORY_DIR (get_history_filepath HISTORY_DIR "/etc/passwd") = false := by
  constructor
  · decide
  · decide

theorem splitSlashAux_no_slash (cs : List Char) : ∀ acc, ¬ '/' ∈ cs →
    splitSlashAux acc cs = [acc.reverse ++ cs] := by
  induction cs with
  | nil =>
    intro acc h
    simp [splitSlashAux]
  | cons c rest ih =>
    intro acc h
    have hc : ¬ c = '/' := fun hc => h (hc ▸ List.mem_cons_self c rest)
    rw [splitSlashAux, if_neg hc, ih (c :: acc) (fun hm => h (List.mem_cons_of_mem _ hm))]
    simp

theorem headIsSlash_no_slash (cs : List Char) (h : ¬ '/' ∈ cs) :
    headIsSlash cs = false := by
  cases cs with
  | nil => rfl
  | cons c rest =>
    have hc : ¬ c = '/' := fun hc => h (hc ▸ List.mem_cons_self c rest)
    simpa [headIsSlash] using hc

theorem filepath_no_slash (k : String) (h : ¬ '/' ∈ k.data) :
    get_history_filepath HISTORY_DIR k
      = { absolute := false, comps := ["history".data, k.data ++ ".json".data] } := by
  have hno : ¬ '/' ∈ (k.data ++ ".json".data) := by
    intro hm
    rcases List.mem_append.mp hm with hm | hm
    · exact h hm
    · exact absurd hm (by decide)
  have hdata : (k ++ ".json").data = k.data ++ ".json".data := rfl
  have hne : (k.data ++ ".json".data) ≠ [] := by
    intro hcon
    have hlen := congrArg List.length hcon
    simp at hlen
  have hnd : (k.data ++ ".json".data) ≠ ['.'] := by
    intro hcon
    have hlen := congrArg List.length hcon
    simp at hlen
  have hcond : (!(k.data ++ ".json".data).isEmpty
      && ((k.data ++ ".json".data) != ['.'])) = true := by
    simp [List.isEmpty_iff, hne, hnd]
  unfold get_history_filepath joinPyPath parsePathName HISTORY_DIR splitSlash
  rw [hdata, splitSlashAux_no_slash (k.data ++ ".json".data) [] hno,
    headIsSlash_no_slash (k.data ++ ".json".data) hno]
  simp [List.filter, hcond]

theorem history_path_dotdot_free (k : String) :
    (k.data ++ ".json".data) ≠ "..".data := by
  intro hcon
  have hlen := congrArg List.length hcon
  simp at hlen

/-- C7 (amended): the storage location is derived deterministically as
`history/<key>.json`; for every key containing no path separator — in
particular the numeric chat identifiers the program actually uses — the
mapping is injective (collision-free) and the derived path stays inside
the history directory; but for general untrusted keys the claim fails:
a key containing `/` (or `..` components) escapes the directory, as the
counterexample shows. -/
theorem history_path_safe (k1 k2 : String)
    (h1 : ¬ '/' ∈ k1.data) (h2 : ¬ '/' ∈ k2.data) :
    withinDir HISTORY_DIR (get_history_filepath HISTORY_DIR k1) = true
    ∧ (get_history_filepath HISTORY_DIR k1 = get_history_filepath HISTORY_DIR k2 →
        k1 = k2) := by
  constructor
  · rw [filepath_no_slash k1 h1]
    have hnd := history_path_dotdot_free k1
    have hh : ¬ ("history".data = "..".data) := by decide
    have hp : normComps ["history".data, k1.data ++ ".json".data]
        = some ["history".data, k1.data ++ ".json".data] := by
      unfold normComps
      simp [normCompsAux, hh, hnd]
    have hdir : normComps ["history".data] = some ["history".data] := by decide
    unfold withinDir HISTORY_DIR
    dsimp only
    rw [hp, hdir]
    simp [List.isPrefixOf]
  · intro heq
    rw [filepath_no_slash k1 h1, filepath_no_slash k2 h2] at heq
    have hcomps := congrArg PyPath.comps heq
    simp only [List.cons.injEq, and_true, true_and] at hcomps
    have hdd : k1.data = k2.data :=
      List.append_cancel_right hcomps
    cases k1 with
    | mk d1 =>
      cases k2 with
      | mk d2 =>
        simp only at hdd
        rw [hdd]

/-- Witness for C7 at concrete separator-free keys. -/
theorem history_path_safe_witness :
    withinDir HISTORY_DIR (get_history_filepath HISTORY_DIR "12345") = true :=
  (history_path_safe "12345" "-99" (by decide) (by decide)).1
